import Mathlib

/-!
Shallow embedding of the `ai-predict-trade` repository (src/indicators.py and
src/patterns.py) and verification of its specification claims.

Prices are embedded as rationals (`ℚ`): the Python code computes over IEEE
floats, but every claim under scrutiny is about the exact arithmetic the code
denotes, so the field `ℚ` is the faithful exact carrier.  A pandas `Series`
of prices is a `List ℚ`; `NaN` positions produced by a rolling window (the
"undefined marker" of the spec) are `Option.none`, so an `IndicatorSeries`
with possibly-undefined positions is a `List (Option ℚ)`.
-/

namespace PredictTrade

/-! ## src/indicators.py -/

/-- `calculate_sma(prices, period)`: `pd.Series(prices).rolling(window=period).mean()`.
For `period ≥ 1`, pandas emits `NaN` at position `i` while the window is not yet
full (`i + 1 < period`) and the arithmetic mean of `prices[i-period+1 .. i]`
once it is.  (`rolling` rejects `window ≤ 0`, so the embedding is only quoted
for `period ≥ 1`.) -/
def calculate_sma (prices : List ℚ) (period : ℕ) : List (Option ℚ) :=
  (List.range prices.length).map (fun i =>
    if i + 1 < period then none
    else some (((prices.drop (i + 1 - period)).take period).sum / (period : ℚ)))

/-- The running state of `pd.Series(prices).ewm(span=period, adjust=False).mean()`
after its seed value: each output is `α*x + (1-α)*prev`. -/
def emaGo (a : ℚ) : ℚ → List ℚ → List ℚ
  | _, [] => []
  | prev, x :: xs => (a * x + (1 - a) * prev) :: emaGo a (a * x + (1 - a) * prev) xs

/-- `calculate_ema(prices, period)`: `pd.Series(prices).ewm(span=period, adjust=False).mean()`.
With `adjust=False` the smoothing factor is `α = 2/(span+1)`, the first output
equals the first input, and each later output is `α*x[i] + (1-α)*y[i-1]`. -/
def calculate_ema (prices : List ℚ) (period : ℕ) : List ℚ :=
  match prices with
  | [] => []
  | p :: ps => p :: emaGo (2 / ((period : ℚ) + 1)) p ps

/-- `calculate_macd(prices)`: `ema_12 - ema_26` pointwise, and the signal line
is the 9-period EMA of the MACD series. -/
def calculate_macd (prices : List ℚ) : List ℚ × List ℚ :=
  let ema_12 := calculate_ema prices 12
  let ema_26 := calculate_ema prices 26
  let macd := List.zipWith (fun a b => a - b) ema_12 ema_26
  let signal_line := calculate_ema macd 9
  (macd, signal_line)

/-- Result of `identify_horizontal_support_resistance`. -/
structure SupportResistance where
  support : List ℚ
  resistance : List ℚ
  deriving DecidableEq

/-- `identify_horizontal_support_resistance(prices)`:
`levels = pd.Series(prices).value_counts()` tallies each distinct value with its
occurrence count; `resistance = levels[levels > 1].index`, `support =
levels[levels < 1].index`.  `value_counts` orders the index by descending count;
that ordering is abstracted here to first-occurrence order (`dedup`), which
preserves the tally itself — the claims at stake are about membership and
emptiness only. -/
def identify_horizontal_support_resistance (prices : List ℚ) : SupportResistance :=
  let levels := prices.dedup.map (fun v => (v, prices.count v))
  { resistance := (levels.filter (fun p => decide (1 < p.2))).map Prod.fst
    support := (levels.filter (fun p => decide (p.2 < 1))).map Prod.fst }

/-- Result of `calculate_fibonacci_levels`: the dict of six named levels. -/
structure FibonacciLevels where
  supportLevel1 : ℚ
  supportLevel2 : ℚ
  supportLevel3 : ℚ
  resistanceLevel1 : ℚ
  resistanceLevel2 : ℚ
  resistanceLevel3 : ℚ
  deriving DecidableEq

/-- `calculate_fibonacci_levels(swing_high, swing_low)`: computes
`price_range = swing_high - swing_low` and the six ratio levels.  The source
performs no validation of its parameters. -/
def calculate_fibonacci_levels (swing_high swing_low : ℚ) : FibonacciLevels :=
  let price_range := swing_high - swing_low
  { supportLevel1 := swing_high - 236/1000 * price_range
    supportLevel2 := swing_high - 382/1000 * price_range
    supportLevel3 := swing_high - 618/1000 * price_range
    resistanceLevel1 := swing_low + 236/1000 * price_range
    resistanceLevel2 := swing_low + 382/1000 * price_range
    resistanceLevel3 := swing_low + 618/1000 * price_range }

/-- One iteration of the loop body of `peak_trough_analysis`: at interior index
`i`, append `prices[i]` to the peaks when it strictly exceeds both neighbours,
else to the troughs when strictly below both, else neither. -/
def ptStep (prices : List ℚ) (acc : List ℚ × List ℚ) (i : ℕ) : List ℚ × List ℚ :=
  if prices.getD i 0 > prices.getD (i - 1) 0 ∧ prices.getD i 0 > prices.getD (i + 1) 0 then
    (acc.1 ++ [prices.getD i 0], acc.2)
  else if prices.getD i 0 < prices.getD (i - 1) 0 ∧ prices.getD i 0 < prices.getD (i + 1) 0 then
    (acc.1, acc.2 ++ [prices.getD i 0])
  else acc

/-- `peak_trough_analysis(prices)`: loops `for i in range(1, len(prices) - 1)`
(the interior indices) accumulating peak and trough values. -/
def peak_trough_analysis (prices : List ℚ) : List ℚ × List ℚ :=
  (List.range' 1 (prices.length - 2)).foldl (ptStep prices) ([], [])

/-! ## src/patterns.py -/

/-- `is_doji(open_price, close_price, threshold=0.01)`:
`abs(open_price - close_price) < threshold * (open_price + close_price) / 2`.
The `threshold` default `0.01` is supplied explicitly at each call site. -/
def is_doji (open_price close_price threshold : ℚ) : Bool :=
  decide (|open_price - close_price| < threshold * (open_price + close_price) / 2)

/-- `is_hammer(low, high, open_price, close_price)`: body and shadows as in the
source's conditional expressions; true when `body < upper_shadow * 0.1` and
`lower_shadow > 2 * body`. -/
def is_hammer (low high open_price close_price : ℚ) : Bool :=
  let body := |close_price - open_price|
  let lower_shadow := if open_price < close_price then open_price - low else close_price - low
  let upper_shadow := if open_price < close_price then high - open_price else high - close_price
  decide (body < upper_shadow * (1/10) ∧ lower_shadow > 2 * body)

/-- The three possible return values of `is_engulfing`. -/
inductive Engulfing where
  | Bullish
  | Bearish
  | None
  deriving DecidableEq

/-- `is_engulfing(previous_open, previous_close, current_open, current_close)`:
`'Bullish'` when `current_open < previous_close and current_close > previous_open`,
`'Bearish'` when `current_open > previous_close and current_close < previous_open`,
otherwise `'None'`. -/
def is_engulfing (previous_open previous_close current_open current_close : ℚ) : Engulfing :=
  if current_open < previous_close ∧ current_close > previous_open then .Bullish
  else if current_open > previous_close ∧ current_close < previous_open then .Bearish
  else .None

/-- The closed set of pattern kinds `detect_patterns` can emit (the source uses
the strings `'Doji'`, `'Hammer'`, `'Bullish Engulfing'`, `'Bearish Engulfing'`). -/
inductive Pattern where
  | Doji
  | Hammer
  | BullishEngulfing
  | BearishEngulfing
  deriving DecidableEq

/-- One row of the DataFrame handed to `detect_patterns`: the `Date`, `Open`,
`High`, `Low`, `Close` columns.  Dates are opaque comparable stamps (`ℕ`). -/
structure Bar where
  Date : ℕ
  Open : ℚ
  High : ℚ
  Low : ℚ
  Close : ℚ
  deriving DecidableEq, Inhabited

/-- The loop body of `detect_patterns` at index `i`: `if is_doji(...): append
Doji; elif is_hammer(...): append Hammer; elif is_engulfing(...) != 'None':
append the engulfing kind` — first match wins, no match appends nothing. -/
def detectStep (data : List Bar) (patterns : List (ℕ × Pattern)) (i : ℕ) : List (ℕ × Pattern) :=
  let current_candle := data.getD i default
  let previous_candle := data.getD (i - 1) default
  if is_doji current_candle.Open current_candle.Close (1/100) then
    patterns ++ [(current_candle.Date, Pattern.Doji)]
  else if is_hammer current_candle.Low current_candle.High current_candle.Open current_candle.Close then
    patterns ++ [(current_candle.Date, Pattern.Hammer)]
  else
    match is_engulfing previous_candle.Open previous_candle.Close current_candle.Open current_candle.Close with
    | Engulfing.Bullish => patterns ++ [(current_candle.Date, Pattern.BullishEngulfing)]
    | Engulfing.Bearish => patterns ++ [(current_candle.Date, Pattern.BearishEngulfing)]
    | Engulfing.None => patterns

/-- `detect_patterns(data)`: loops `for i in range(1, len(data))` over the bars
from the second onward, running `detectStep` with an accumulator list. -/
def detect_patterns (data : List Bar) : List (ℕ × Pattern) :=
  (List.range' 1 (data.length - 1)).foldl (detectStep data) []

/-- Per-bar priority classifier used to state the claims about
`detect_patterns`: Doji first, then Hammer, then Engulfing against the
previous bar; the first matching rule yields the single event, no match yields
no event. -/
def classifyBarSpec (previous_candle current_candle : Bar) : Option (ℕ × Pattern) :=
  if is_doji current_candle.Open current_candle.Close (1/100) then
    some (current_candle.Date, Pattern.Doji)
  else if is_hammer current_candle.Low current_candle.High current_candle.Open current_candle.Close then
    some (current_candle.Date, Pattern.Hammer)
  else
    match is_engulfing previous_candle.Open previous_candle.Close current_candle.Open current_candle.Close with
    | Engulfing.Bullish => some (current_candle.Date, Pattern.BullishEngulfing)
    | Engulfing.Bearish => some (current_candle.Date, Pattern.BearishEngulfing)
    | Engulfing.None => none

/-- Peak classifier at one interior position, used to state the claims about
`peak_trough_analysis`: the middle value is emitted as a peak exactly when it
strictly exceeds both neighbours. -/
def peakAtSpec (a b c : ℚ) : Option ℚ := if b > a ∧ b > c then some b else none

/-- Trough classifier at one interior position: the middle value is emitted as
a trough exactly when it is strictly below both neighbours. -/
def troughAtSpec (a b c : ℚ) : Option ℚ := if b < a ∧ b < c then some b else none

/-! ## Helper lemmas -/

theorem emaGo_length (a : ℚ) : ∀ (prev : ℚ) (xs : List ℚ), (emaGo a prev xs).length = xs.length
  | _, [] => rfl
  | prev, x :: xs => by
    simp only [emaGo, List.length_cons]
    rw [emaGo_length a (a * x + (1 - a) * prev) xs]

/-- The EMA recurrence, phrased on the tail `emaGo`: each produced value is
`a * input + (1 - a) * previous output`, where the previous output of the
`j`-th produced value is position `j` of `prev` consed onto the outputs. -/
theorem emaGo_getD (a : ℚ) : ∀ (xs : List ℚ) (prev : ℚ) (j : ℕ), j < xs.length →
    (emaGo a prev xs).getD j 0 =
      a * xs.getD j 0 + (1 - a) * ((prev :: emaGo a prev xs).getD j 0)
  | [], _, j, h => absurd h (by simp)
  | x :: xs, prev, 0, _ => by simp [emaGo]
  | x :: xs, prev, j + 1, h => by
    simp only [emaGo, List.getD_cons_succ]
    exact emaGo_getD a xs (a * x + (1 - a) * prev) j (Nat.lt_of_succ_lt_succ (by simpa using h))

theorem emaGo_replicate (a c : ℚ) : ∀ n : ℕ, emaGo a c (List.replicate n c) = List.replicate n c := by
  intro n
  induction n with
  | zero => rfl
  | succ n ih =>
    rw [List.replicate_succ]
    show (a * c + (1 - a) * c) :: emaGo a (a * c + (1 - a) * c) (List.replicate n c)
      = List.replicate (n + 1) c
    have hc : a * c + (1 - a) * c = c := by ring
    rw [hc, ih, List.replicate_succ]

theorem calculate_ema_replicate (n : ℕ) (c : ℚ) (period : ℕ) :
    calculate_ema (List.replicate n c) period = List.replicate n c := by
  cases n with
  | zero => rfl
  | succ n =>
    rw [List.replicate_succ]
    show c :: emaGo (2 / ((period : ℚ) + 1)) c (List.replicate n c) = List.replicate (n + 1) c
    rw [emaGo_replicate, List.replicate_succ]

theorem take_eq_range_map : ∀ (l : List ℚ) (t : ℕ), t ≤ l.length →
    l.take t = (List.range t).map (fun k => l.getD k 0)
  | _, 0, _ => by simp
  | [], t + 1, h => by simp at h
  | x :: l, t + 1, h => by
    rw [List.take_succ_cons, List.range_succ_eq_map, List.map_cons, List.map_map]
    refine congrArg₂ List.cons rfl ?_
    rw [take_eq_range_map l t (Nat.le_of_succ_le_succ (by simpa using h))]
    exact List.map_congr_left (fun k _ => rfl)

theorem drop_take_eq_range_map (l : List ℚ) (s t : ℕ) (h : s + t ≤ l.length) :
    (l.drop s).take t = (List.range t).map (fun k => l.getD (s + k) 0) := by
  rw [take_eq_range_map (l.drop s) t (by simp; omega)]
  refine List.map_congr_left (fun k _ => ?_)
  simp [List.getD_eq_getElem?_getD, List.getElem?_drop]

theorem calculate_sma_getD (prices : List ℚ) (period : ℕ) (i : ℕ) (h : i < prices.length) :
    (calculate_sma prices period).getD i none =
      if i + 1 < period then none
      else some (((prices.drop (i + 1 - period)).take period).sum / (period : ℚ)) := by
  simp [calculate_sma, List.getD_eq_getElem?_getD, List.getElem?_range h]

theorem ptStep_foldl (prices : List ℚ) : ∀ (idxs : List ℕ) (acc : List ℚ × List ℚ),
    idxs.foldl (ptStep prices) acc =
      (acc.1 ++ idxs.filterMap (fun i =>
          peakAtSpec (prices.getD (i - 1) 0) (prices.getD i 0) (prices.getD (i + 1) 0)),
       acc.2 ++ idxs.filterMap (fun i =>
          troughAtSpec (prices.getD (i - 1) 0) (prices.getD i 0) (prices.getD (i + 1) 0)))
  | [], acc => by simp
  | i :: idxs, acc => by
    rw [List.foldl_cons, ptStep_foldl prices idxs, List.filterMap_cons, List.filterMap_cons]
    by_cases h1 : prices.getD i 0 > prices.getD (i - 1) 0 ∧ prices.getD i 0 > prices.getD (i + 1) 0
    · have hp : peakAtSpec (prices.getD (i - 1) 0) (prices.getD i 0) (prices.getD (i + 1) 0)
          = some (prices.getD i 0) := if_pos h1
      have ht : troughAtSpec (prices.getD (i - 1) 0) (prices.getD i 0) (prices.getD (i + 1) 0)
          = none := by
        refine if_neg ?_
        rintro ⟨hb, _⟩
        exact lt_asymm h1.1 hb
      rw [ptStep, if_pos h1, hp, ht]
      simp
    · by_cases h2 : prices.getD i 0 < prices.getD (i - 1) 0 ∧ prices.getD i 0 < prices.getD (i + 1) 0
      · have hp : peakAtSpec (prices.getD (i - 1) 0) (prices.getD i 0) (prices.getD (i + 1) 0)
            = none := if_neg h1
        have ht : troughAtSpec (prices.getD (i - 1) 0) (prices.getD i 0) (prices.getD (i + 1) 0)
            = some (prices.getD i 0) := if_pos h2
        rw [ptStep, if_neg h1, if_pos h2, hp, ht]
        simp
      · have hp : peakAtSpec (prices.getD (i - 1) 0) (prices.getD i 0) (prices.getD (i + 1) 0)
            = none := if_neg h1
        have ht : troughAtSpec (prices.getD (i - 1) 0) (prices.getD i 0) (prices.getD (i + 1) 0)
            = none := if_neg h2
        rw [ptStep, if_neg h1, if_neg h2, hp, ht]

theorem detectStep_eq (data : List Bar) (patterns : List (ℕ × Pattern)) (i : ℕ) :
    detectStep data patterns i =
      patterns ++ (classifyBarSpec (data.getD (i - 1) default) (data.getD i default)).toList := by
  simp only [detectStep, classifyBarSpec]
  split_ifs with hd hh
  · simp
  · simp
  · split <;> simp

theorem detect_foldl (data : List Bar) : ∀ (idxs : List ℕ) (acc : List (ℕ × Pattern)),
    idxs.foldl (detectStep data) acc =
      acc ++ idxs.filterMap (fun i =>
        classifyBarSpec (data.getD (i - 1) default) (data.getD i default))
  | [], acc => by simp
  | i :: idxs, acc => by
    rw [List.foldl_cons, detectStep_eq, detect_foldl data idxs, List.filterMap_cons]
    cases h : classifyBarSpec (data.getD (i - 1) default) (data.getD i default) <;> simp [h]

/-! ## Claim theorems -/

/-- C9: for every open and close with `open + close = 0` and every threshold,
`is_doji` returns the defined boolean `false`: the degenerate case yields a
defined result (and the embedding is a total function, so no arithmetic fault
propagates). -/
theorem is_doji_zero_sum_false (open_price close_price threshold : ℚ)
    (h : open_price + close_price = 0) :
    is_doji open_price close_price threshold = false := by
  have h0 : threshold * (open_price + close_price) / 2 = 0 := by rw [h]; ring
  simp only [is_doji, h0, decide_eq_false_iff_not, not_lt]
  exact abs_nonneg _

/-- Witness for C9: `is_doji` at `open = 3`, `close = -3`, `threshold = 1/100`
returns `false`. -/
theorem is_doji_zero_sum_false_witness : is_doji 3 (-3) (1/100) = false :=
  is_doji_zero_sum_false 3 (-3) (1/100) (by norm_num)

/-- C5 counterexample: at `swing_high = 100 < 110 = swing_low`,
`calculate_fibonacci_levels` does not fail: it returns an ordinary level set
(computed from the negative price range), contradicting the claim that the
call fails with `InvalidParameter` rather than returning a level set. -/
theorem fibonacci_no_failure_counterexample :
    (100 : ℚ) < 110 ∧
    calculate_fibonacci_levels 100 110 =
      { supportLevel1 := 10236/100, supportLevel2 := 10382/100, supportLevel3 := 10618/100,
        resistanceLevel1 := 10764/100, resistanceLevel2 := 10618/100,
        resistanceLevel3 := 10382/100 } := by
  refine ⟨by norm_num, ?_⟩
  norm_num [calculate_fibonacci_levels]

/-- C5 amended: `calculate_fibonacci_levels` performs no parameter validation;
for every pair with `swing_high < swing_low` it still returns the six-level
set computed from the (negative) `price_range = swing_high - swing_low`. -/
theorem fibonacci_no_validation (swing_high swing_low : ℚ) (h : swing_high < swing_low) :
    calculate_fibonacci_levels swing_high swing_low =
      { supportLevel1 := swing_high - 236/1000 * (swing_high - swing_low)
        supportLevel2 := swing_high - 382/1000 * (swing_high - swing_low)
        supportLevel3 := swing_high - 618/1000 * (swing_high - swing_low)
        resistanceLevel1 := swing_low + 236/1000 * (swing_high - swing_low)
        resistanceLevel2 := swing_low + 382/1000 * (swing_high - swing_low)
        resistanceLevel3 := swing_low + 618/1000 * (swing_high - swing_low) } := rfl

/-- Witness for C5's amended theorem at `swing_high = 100`, `swing_low = 110`. -/
theorem fibonacci_no_validation_witness :
    calculate_fibonacci_levels 100 110 =
      { supportLevel1 := 100 - 236/1000 * (100 - 110)
        supportLevel2 := 100 - 382/1000 * (100 - 110)
        supportLevel3 := 100 - 618/1000 * (100 - 110)
        resistanceLevel1 := 110 + 236/1000 * (100 - 110)
        resistanceLevel2 := 110 + 382/1000 * (100 - 110)
        resistanceLevel3 := 110 + 618/1000 * (100 - 110) } :=
  fibonacci_no_validation 100 110 (by norm_num)

/-- C8 counterexample: at `previous_open = 100`, `previous_close = 102`,
`current_open = 101`, `current_close = 103`, the two bodies (`[100,102]` and
`[101,103]`) overlap but the current body does not contain the previous one
(`101 ≰ 100`), yet `is_engulfing` returns `Bullish`, not `None` as the claim
requires for overlapping-but-not-containing bodies. -/
theorem is_engulfing_overlap_counterexample :
    ((100 : ℚ) < 102 ∧ (101 : ℚ) < 103) ∧
    ((101 : ℚ) ≤ 102 ∧ (100 : ℚ) ≤ 103) ∧
    ¬((101 : ℚ) ≤ 100) ∧
    is_engulfing 100 102 101 103 = Engulfing.Bullish := by decide

/-- C8 amended: `is_engulfing` returns `Bullish` exactly when
`current_open < previous_close` and `previous_open < current_close` (and
`Bearish` exactly under the mirrored comparisons) — the literal comparisons of
the source, which admit overlapping-but-not-containing bodies when the
previous bar is bullish; the documented example
`(prev_open=100, prev_close=102, cur_open=99, cur_close=103)` returns
`Bullish`. -/
theorem is_engulfing_literal_comparisons :
    (∀ previous_open previous_close current_open current_close : ℚ,
      (is_engulfing previous_open previous_close current_open current_close = Engulfing.Bullish ↔
        current_open < previous_close ∧ previous_open < current_close) ∧
      (is_engulfing previous_open previous_close current_open current_close = Engulfing.Bearish ↔
        previous_close < current_open ∧ current_close < previous_open)) ∧
    is_engulfing 100 102 99 103 = Engulfing.Bullish := by
  refine ⟨fun previous_open previous_close current_open current_close => ?_, by decide⟩
  rw [is_engulfing]
  split_ifs with h1 h2
  · exact ⟨iff_of_true rfl ⟨h1.1, h1.2⟩,
      iff_of_false (by simp) (fun hc => (lt_asymm h1.1) hc.1)⟩
  · exact ⟨iff_of_false (by simp) (fun hc => h1 ⟨hc.1, hc.2⟩),
      iff_of_true rfl ⟨h2.1, h2.2⟩⟩
  · exact ⟨iff_of_false (by simp) (fun hc => h1 ⟨hc.1, hc.2⟩),
      iff_of_false (by simp) (fun hc => h2 ⟨hc.1, hc.2⟩)⟩

/-- C7: for every price list, the `support` list of
`identify_horizontal_support_resistance` is empty (an occurrence count is
never `< 1`), while the `resistance` list holds exactly the distinct values
occurring more than once. -/
theorem support_empty_resistance_repeats (prices : List ℚ) :
    (identify_horizontal_support_resistance prices).support = [] ∧
    (identify_horizontal_support_resistance prices).resistance.Nodup ∧
    ∀ x : ℚ, x ∈ (identify_horizontal_support_resistance prices).resistance ↔
      1 < prices.count x := by
  have hres : (identify_horizontal_support_resistance prices).resistance
      = prices.dedup.filter (fun v => decide (1 < prices.count v)) := by
    simp only [identify_horizontal_support_resistance]
    rw [List.filter_map, List.map_map]
    show List.map id (prices.dedup.filter (fun v => decide (1 < prices.count v)))
        = prices.dedup.filter (fun v => decide (1 < prices.count v))
    exact List.map_id _
  refine ⟨?_, ?_, ?_⟩
  · have : (identify_horizontal_support_resistance prices).support
        = prices.dedup.filter (fun v => decide (prices.count v < 1)) := by
      simp only [identify_horizontal_support_resistance]
      rw [List.filter_map, List.map_map]
      show List.map id (prices.dedup.filter (fun v => decide (prices.count v < 1)))
          = prices.dedup.filter (fun v => decide (prices.count v < 1))
      exact List.map_id _
    rw [this, List.filter_eq_nil_iff]
    intro v hv
    have : 0 < prices.count v := List.count_pos_iff.mpr (List.mem_dedup.mp hv)
    simp only [decide_eq_true_eq, not_lt]
    omega
  · rw [hres]
    exact (List.nodup_dedup prices).filter _
  · intro x
    rw [hres]
    simp only [List.mem_filter, List.mem_dedup, decide_eq_true_eq]
    constructor
    · exact fun h => h.2
    · exact fun h => ⟨List.count_pos_iff.mp (by omega), h⟩

/-- C10: `peak_trough_analysis` on `[1,3,2,5,1]` yields peaks `[3,5]` and
troughs `[2]`; in general it is the scan of the strict peak/trough classifiers
over interior indices only (`range' 1 (n-2)`, so the first and last positions
are never classified), and a tie with an equal neighbour classifies as
neither a peak nor a trough. -/
theorem peak_trough_analysis_spec :
    peak_trough_analysis [1, 3, 2, 5, 1] = ([3, 5], [2]) ∧
    (∀ prices : List ℚ, peak_trough_analysis prices =
      ((List.range' 1 (prices.length - 2)).filterMap (fun i =>
          peakAtSpec (prices.getD (i - 1) 0) (prices.getD i 0) (prices.getD (i + 1) 0)),
       (List.range' 1 (prices.length - 2)).filterMap (fun i =>
          troughAtSpec (prices.getD (i - 1) 0) (prices.getD i 0) (prices.getD (i + 1) 0)))) ∧
    (∀ a b c : ℚ, a = b ∨ b = c →
      peakAtSpec a b c = none ∧ troughAtSpec a b c = none) := by
  refine ⟨by decide, ?_, ?_⟩
  · intro prices
    rw [peak_trough_analysis, ptStep_foldl]
    simp
  · rintro a b c (rfl | rfl)
    · exact ⟨if_neg (fun hc => lt_irrefl a hc.1), if_neg (fun hc => lt_irrefl a hc.1)⟩
    · exact ⟨if_neg (fun hc => lt_irrefl b hc.2), if_neg (fun hc => lt_irrefl b hc.2)⟩

/-- Witness for C10: a tied pair of neighbours (`1, 1, 2`) is classified as
neither peak nor trough. -/
theorem peak_trough_analysis_spec_witness :
    peakAtSpec 1 1 2 = none ∧ troughAtSpec 1 1 2 = none :=
  peak_trough_analysis_spec.2.2 1 1 2 (Or.inl rfl)

/-- C6 counterexample: on inputs too short to produce any defined value
(`[61, 62]` has fewer than 3 prices, a single bar is fewer than 2 bars) the
operations do not fail with an `InsufficientData` error — the code has no such
error path — but return the ordinary empty results. -/
theorem short_input_counterexample :
    peak_trough_analysis [61, 62] = ([], []) ∧
    detect_patterns [⟨0, 100, 103, 99, 102⟩] = [] := by
  exact ⟨rfl, rfl⟩

/-- C6 amended: on every input shorter than the minimum needed for one defined
value, the operations return ordinary empty results (no error is raised):
`peak_trough_analysis` on fewer than 3 prices returns `([], [])` and
`detect_patterns` on fewer than 2 bars returns `[]`. -/
theorem short_input_returns_empty :
    (∀ prices : List ℚ, prices.length < 3 → peak_trough_analysis prices = ([], [])) ∧
    (∀ data : List Bar, data.length < 2 → detect_patterns data = []) := by
  constructor
  · intro prices h
    have h2 : prices.length - 2 = 0 := by omega
    rw [peak_trough_analysis, h2, List.range'_zero, List.foldl_nil]
  · intro data h
    have h1 : data.length - 1 = 0 := by omega
    rw [detect_patterns, h1, List.range'_zero, List.foldl_nil]

/-- Witness for C6's amended theorem at a 2-price list and a 1-bar list. -/
theorem short_input_returns_empty_witness :
    peak_trough_analysis [7, 9] = ([], []) ∧
    detect_patterns [⟨5, 101, 104, 100, 102⟩] = [] :=
  ⟨short_input_returns_empty.1 [7, 9] (by decide),
   short_input_returns_empty.2 [⟨5, 101, 104, 100, 102⟩] (by decide)⟩

/-- C3: `detect_patterns` equals the scan of the priority classifier
`classifyBarSpec` over indices `1 .. len-1` (so the first bar is never
classified and each later bar is judged, against its immediate predecessor,
by Doji first, then Hammer, then Engulfing — first match wins, producing at
most one event per bar); a doji-shaped bar yields exactly the Doji event even
when the engulfing rule would also match, and a bar matching no rule yields
no event. -/
theorem detect_patterns_priority :
    (∀ data : List Bar, detect_patterns data =
      (List.range' 1 (data.length - 1)).filterMap (fun i =>
        classifyBarSpec (data.getD (i - 1) default) (data.getD i default))) ∧
    (∀ previous_candle current_candle : Bar,
      is_doji current_candle.Open current_candle.Close (1/100) = true →
      classifyBarSpec previous_candle current_candle =
        some (current_candle.Date, Pattern.Doji)) ∧
    (∀ previous_candle current_candle : Bar,
      is_doji current_candle.Open current_candle.Close (1/100) = false →
      is_hammer current_candle.Low current_candle.High current_candle.Open
        current_candle.Close = false →
      is_engulfing previous_candle.Open previous_candle.Close current_candle.Open
        current_candle.Close = Engulfing.None →
      classifyBarSpec previous_candle current_candle = none) := by
  refine ⟨?_, ?_, ?_⟩
  · intro data
    rw [detect_patterns, detect_foldl]
    simp
  · intro previous_candle current_candle hd
    rw [classifyBarSpec, if_pos hd]
  · intro previous_candle current_candle hd hh he
    have hd' : ¬(is_doji current_candle.Open current_candle.Close (1/100) = true) := by
      rw [hd]; simp
    have hh' : ¬(is_hammer current_candle.Low current_candle.High current_candle.Open
        current_candle.Close = true) := by
      rw [hh]; simp
    rw [classifyBarSpec, if_neg hd', if_neg hh', he]

/-- Witness for C3: a concrete bar pair where the current bar is doji-shaped
and also engulfs the previous bar's body; `detect_patterns` emits exactly one
event for it, the Doji. -/
theorem detect_patterns_priority_witness :
    is_engulfing 100 (10002/100) (9999/100) (10005/100) = Engulfing.Bullish ∧
    classifyBarSpec ⟨0, 100, 101, 99, 10002/100⟩ ⟨1, 9999/100, 102, 99, 10005/100⟩ =
      some (1, Pattern.Doji) ∧
    detect_patterns [⟨0, 100, 101, 99, 10002/100⟩, ⟨1, 9999/100, 102, 99, 10005/100⟩] =
      [(1, Pattern.Doji)] := by
  have hdoji : is_doji (9999/100) (10005/100) (1/100) = true := by
    norm_num [is_doji, abs_lt]
  refine ⟨by norm_num [is_engulfing], detect_patterns_priority.2.1 _ _ hdoji, ?_⟩
  norm_num [detect_patterns, detectStep, is_doji, abs_lt]

/-- C1: for every `period ≥ 1` and price list of length `n`, `calculate_sma`
returns exactly `n` positions; every position `i` with `i + 1 < period` (that
is, `i < period - 1`) holds the undefined marker, and every position with
`period ≤ i + 1` holds the arithmetic mean of `prices[i-period+1 .. i]`. -/
theorem calculate_sma_spec (prices : List ℚ) (period : ℕ) (hp : 1 ≤ period) :
    (calculate_sma prices period).length = prices.length ∧
    (∀ i : ℕ, i < prices.length → i + 1 < period →
      (calculate_sma prices period).getD i none = none) ∧
    (∀ i : ℕ, i < prices.length → period ≤ i + 1 →
      (calculate_sma prices period).getD i none =
        some (((List.range period).map (fun k => prices.getD (i + 1 - period + k) 0)).sum
          / (period : ℚ))) := by
  refine ⟨by simp [calculate_sma], ?_, ?_⟩
  · intro i hi hlt
    rw [calculate_sma_getD prices period i hi, if_pos hlt]
  · intro i hi hge
    rw [calculate_sma_getD prices period i hi, if_neg (by omega),
      drop_take_eq_range_map prices (i + 1 - period) period (by omega)]

/-- Witness for C1 at `prices = [1,2,3]`, `period = 2`, position `1`. -/
theorem calculate_sma_spec_witness :
    (calculate_sma [1, 2, 3] 2).getD 1 none =
      some ((((List.range 2).map (fun k => ([1, 2, 3] : List ℚ).getD (1 + 1 - 2 + k) 0)).sum)
        / (((2 : ℕ)) : ℚ)) :=
  (calculate_sma_spec [1, 2, 3] 2 (by decide)).2.2 1 (by decide) (by decide)

/-- C2: for every `period ≥ 1` and non-empty price list, `calculate_ema` has a
value at every position (output length equals input length, with no undefined
marker in its type), its first output equals the first input price, and every
later output satisfies `ema[i] = α·prices[i] + (1-α)·ema[i-1]` with
`α = 2/(period+1)`. -/
theorem calculate_ema_spec (prices : List ℚ) (period : ℕ) (hp : 1 ≤ period)
    (hne : prices ≠ []) :
    (calculate_ema prices period).length = prices.length ∧
    (calculate_ema prices period).getD 0 0 = prices.getD 0 0 ∧
    (∀ i : ℕ, 0 < i → i < prices.length →
      (calculate_ema prices period).getD i 0 =
        2 / ((period : ℚ) + 1) * prices.getD i 0 +
          (1 - 2 / ((period : ℚ) + 1)) * (calculate_ema prices period).getD (i - 1) 0) := by
  match prices with
  | [] => exact absurd rfl hne
  | p :: ps =>
    refine ⟨?_, rfl, ?_⟩
    · show (p :: emaGo (2 / ((period : ℚ) + 1)) p ps).length = (p :: ps).length
      simp [emaGo_length]
    · intro i h0 hlen
      match i, h0 with
      | j + 1, _ =>
        have hj : j < ps.length := by simpa using hlen
        calc (calculate_ema (p :: ps) period).getD (j + 1) 0
            = (emaGo (2 / ((period : ℚ) + 1)) p ps).getD j 0 := rfl
          _ = 2 / ((period : ℚ) + 1) * ps.getD j 0
              + (1 - 2 / ((period : ℚ) + 1))
                * ((p :: emaGo (2 / ((period : ℚ) + 1)) p ps).getD j 0) :=
            emaGo_getD _ ps p j hj
          _ = 2 / ((period : ℚ) + 1) * (p :: ps).getD (j + 1) 0
              + (1 - 2 / ((period : ℚ) + 1))
                * ((calculate_ema (p :: ps) period).getD (j + 1 - 1) 0) := rfl

/-- Witness for C2 at `prices = [4, 8]`, `period = 3`, position `1`. -/
theorem calculate_ema_spec_witness :
    (calculate_ema [4, 8] 3).getD 1 0 =
      2 / (((3 : ℕ) : ℚ) + 1) * ([4, 8] : List ℚ).getD 1 0 +
        (1 - 2 / (((3 : ℕ) : ℚ) + 1)) * (calculate_ema [4, 8] 3).getD (1 - 1) 0 :=
  (calculate_ema_spec [4, 8] 3 (by decide) (by decide)).2.2 1 (by decide) (by decide)

/-- C4: on every constant price series, `calculate_macd` returns a MACD line
that is zero at every position and a signal line that is zero at every
position. -/
theorem calculate_macd_constant (prices : List ℚ) (c : ℚ) (h : ∀ x ∈ prices, x = c) :
    calculate_macd prices =
      (List.replicate prices.length 0, List.replicate prices.length 0) := by
  have hrep : prices = List.replicate prices.length c := List.eq_replicate_of_mem h
  obtain ⟨n, rfl⟩ : ∃ n, prices = List.replicate n c := ⟨prices.length, hrep⟩
  simp only [List.length_replicate]
  show (List.zipWith (fun a b => a - b) (calculate_ema (List.replicate n c) 12)
          (calculate_ema (List.replicate n c) 26),
        calculate_ema (List.zipWith (fun a b => a - b) (calculate_ema (List.replicate n c) 12)
          (calculate_ema (List.replicate n c) 26)) 9)
      = (List.replicate n 0, List.replicate n 0)
  rw [calculate_ema_replicate, calculate_ema_replicate]
  have hz : List.zipWith (fun a b : ℚ => a - b) (List.replicate n c) (List.replicate n c)
      = List.replicate n 0 := by
    simp [List.zipWith_replicate]
  rw [hz, calculate_ema_replicate]

/-- Witness for C4 at the constant series `[7, 7]`. -/
theorem calculate_macd_constant_witness :
    calculate_macd [7, 7] = (List.replicate 2 0, List.replicate 2 0) := by
  simpa using calculate_macd_constant [7, 7] 7 (by decide)

end PredictTrade

